import Mathlib

/-!
Verification of the crm-leparc application core against its source.

The development shallowly embeds the TypeScript/SQL sources:

* the category utilities (categoryDiminutives, getCategoryAbbreviation,
  getProductCode, searchInCategoryAbbreviations) as pure Lean functions;
* the list-fetch, delete and realtime-subscription handlers of the page
  components as pure functions from the backend responses to the new UI
  state together with the effects they perform (queries issued, console
  logs, user alerts);
* the database schema declared in the migrations as a small relational
  state with the foreign-key / cascade-on-delete semantics of the
  declared constraints.
-/

namespace CrmLeparc

/-! ## Category utilities (utils/categoryUtils.ts) -/

/-- The static category-to-abbreviation table, entry for entry the object
literal categoryDiminutives from the source. -/
def categoryDiminutives : List (String × String) :=
  [("Informatique", "INF"),
   ("Lumière", "LUM"),
   ("Vidéo-Photo", "VID"),
   ("Appareils-Numériques", "NUM"),
   ("Son", "SON"),
   ("Electro Ménager", "ELE"),
   ("Serveur-Stockage", "SRV"),
   ("périphérique", "PRH"),
   ("imprimante", "IMP")]

/-- JavaScript object property lookup over an association list: the first
binding whose key equals the requested key, if any. -/
def lookupStr : List (String × String) → String → Option String
  | [], _ => none
  | (k, v) :: rest, c => if k = c then some v else lookupStr rest c

/-- Embedding of getCategoryAbbreviation: categoryDiminutives[category] ||
category.  The || also falls back on a falsy (empty-string) table value,
which the embedding keeps even though no table value is empty. -/
def getCategoryAbbreviation (category : String) : String :=
  match lookupStr categoryDiminutives category with
  | some v => if v = "" then category else v
  | none => category

/-- Embedding of getProductCode: the template literal
interpolating the abbreviation, a dash and the item code. -/
def getProductCode (category : String) (code : String) : String :=
  s!"{getCategoryAbbreviation category}-{code}"

/-- Lower-casing of one character as JavaScript toLowerCase performs it on
the Basic Latin and Latin-1 ranges (the only ranges occurring in the
category table): uppercase ASCII letters and uppercase Latin-1 letters
(except the multiplication sign U+00D7) move down by 0x20. -/
def jsCharToLower (c : Char) : Char :=
  if 65 ≤ c.toNat ∧ c.toNat ≤ 90 then Char.ofNat (c.toNat + 32)
  else if 192 ≤ c.toNat ∧ c.toNat ≤ 222 ∧ c.toNat ≠ 215 then Char.ofNat (c.toNat + 32)
  else c

/-- Embedding of String.prototype.toLowerCase, character by character. -/
def jsToLower (s : String) : String :=
  String.mk (s.data.map jsCharToLower)

/-- Whether the character list starts with the given pattern. -/
def charsStartWith : List Char → List Char → Bool
  | _, [] => true
  | [], _ :: _ => false
  | c :: cs, d :: ds => c = d && charsStartWith cs ds

/-- Whether the pattern occurs contiguously in the character list. -/
def charsContain : List Char → List Char → Bool
  | [], sub => sub.isEmpty
  | c :: cs, sub => charsStartWith (c :: cs) sub || charsContain cs sub

/-- Embedding of String.prototype.includes: substring containment. -/
def containsSubstr (s sub : String) : Bool :=
  charsContain s.data sub.data

/-- Embedding of searchInCategoryAbbreviations: lower-case the search term,
keep the table entries whose category or abbreviation contains it, and
return their category labels. -/
def searchInCategoryAbbreviations (searchTerm : String) : List String :=
  let term := jsToLower searchTerm
  (categoryDiminutives.filter (fun p =>
      containsSubstr (jsToLower p.1) term || containsSubstr (jsToLower p.2) term)).map
    Prod.fst

/-! ## Backend queries and page state

A supabase read is embedded as the query descriptor the page builds
(relation, selected columns, ordering) together with the response the
backend returns for it.  Each fetch / delete handler of the pages becomes
a pure function from the backend responses to the new component state and
the effects the handler performs: the queries it issued, the console logs
and the user-visible alerts. -/

/-- A supabase list query as the pages build it: a relation name, the
selected columns, and an order key with direction. -/
structure Query where
  relation : String
  columns : String
  orderBy : String
  ascending : Bool
deriving DecidableEq

/-- Result of one backend call: the data rows, or an error. -/
inductive FetchResult (α : Type) where
  | ok (rows : List α)
  | err
deriving DecidableEq

/-- Result of a backend delete call. -/
inductive DeleteResult where
  | ok
  | err
deriving DecidableEq

/-- Console logs and user-visible alert messages produced by one handler. -/
structure UIEffects where
  logs : List String
  alerts : List String
deriving DecidableEq

/-! ### Clients page (Clients component) -/

/-- A row of the clients_with_devices view as the Clients page types it;
the aggregate columns are absent (undefined) on rows read from the plain
clients table, hence optional. -/
structure ClientRow where
  id : String
  name : String
  first_name : String
  company : String
  email : String
  phone : String
  address : String
  city : String
  postal_code : String
  expectations : String
  comments : String
  created_at : String
  device_count : Option Int
  quote_invoice_count : Option Int
  total_amount : Option Int
deriving DecidableEq

/-- The joined list query of fetchClients. -/
def clientsViewQuery : Query :=
  { relation := "clients_with_devices", columns := "*",
    orderBy := "created_at", ascending := false }

/-- The unjoined fallback query of fetchClients. -/
def clientsFallbackQuery : Query :=
  { relation := "clients", columns := "*",
    orderBy := "created_at", ascending := false }

/-- Embedding of fetchClients: read the clients_with_devices view; on an
error fall back to the plain clients table with the same ordering; if the
fallback errors as well, set the list empty.  Returns the new clients
state and the queries issued. -/
def fetchClients (viewRes : FetchResult ClientRow)
    (tableRes : FetchResult ClientRow) : List ClientRow × List Query :=
  match viewRes with
  | .ok rows => (rows, [clientsViewQuery])
  | .err =>
    match tableRes with
    | .ok rows => (rows, [clientsViewQuery, clientsFallbackQuery])
    | .err => ([], [clientsViewQuery, clientsFallbackQuery])

/-- Embedding of the Clients page handleDelete: when the confirm dialog is
accepted, delete on the backend; on success drop the rows with the deleted
id from the local list, on an error log, alert the localized message and
leave the list as it was. -/
def clientsHandleDelete (confirmed : Bool) (res : DeleteResult)
    (clients : List ClientRow) (targetId : String) :
    List ClientRow × UIEffects :=
  if !confirmed then (clients, ⟨[], []⟩)
  else
    match res with
    | .ok => (clients.filter (fun c => c.id ≠ targetId), ⟨[], []⟩)
    | .err => (clients, ⟨["Error deleting client:"],
        ["Erreur lors de la suppression du client"]⟩)

/-! ### Devices page (Devices component) -/

/-- A row of the plain devices table as the Devices page reads it in the
fallback branch. -/
structure DeviceBase where
  id : Int
  category : String
  code : String
  brand : String
  model : String
  external_condition : String
  grade : String
  functioning : String
  in_stock : Bool
  storage_location : String
  operator_id : Option Int
  client_id : Option Int
  created_at : String
deriving DecidableEq

/-- A row of the devices_with_relations view as the Devices page types
it: the table columns plus the joined columns. -/
structure DeviceRow extends DeviceBase where
  operator_name : Option String
  intervention_count : Int
  last_intervention_date : Option String
deriving DecidableEq

/-- The transform the fetchDevices fallback applies to a plain devices
row: spread the row and null out the joined columns. -/
def deviceFromBase (d : DeviceBase) : DeviceRow :=
  { toDeviceBase := d, operator_name := none, intervention_count := 0,
    last_intervention_date := none }

/-- The joined list query of fetchDevices. -/
def devicesViewQuery : Query :=
  { relation := "devices_with_relations", columns := "*",
    orderBy := "created_at", ascending := false }

/-- The unjoined fallback query of fetchDevices. -/
def devicesFallbackQuery : Query :=
  { relation := "devices", columns := "*",
    orderBy := "created_at", ascending := false }

/-- Embedding of fetchDevices: read the devices_with_relations view; on an
error fall back to the plain devices table with the same ordering and
transform each row; if the fallback errors as well, set the list empty. -/
def fetchDevices (viewRes : FetchResult DeviceRow)
    (tableRes : FetchResult DeviceBase) : List DeviceRow × List Query :=
  match viewRes with
  | .ok rows => (rows, [devicesViewQuery])
  | .err =>
    match tableRes with
    | .ok rows => (rows.map deviceFromBase, [devicesViewQuery, devicesFallbackQuery])
    | .err => ([], [devicesViewQuery, devicesFallbackQuery])

/-! ### QuotesInvoices page (QuotesInvoices component) -/

/-- A row of the quotes_invoices_with_relations view as the QuotesInvoices
page types it. -/
structure QuoteRow where
  id : Int
  client_id : Int
  document_type : String
  amount : Int
  status : String
  issue_date : String
  payment_date : Option String
  created_at : String
  client_name : String
  client_first_name : String
  client_company : Option String
  client_email : String
deriving DecidableEq

/-- The joined list query of fetchQuotesInvoices. -/
def quotesViewQuery : Query :=
  { relation := "quotes_invoices_with_relations", columns := "*",
    orderBy := "created_at", ascending := false }

/-- Embedding of fetchQuotesInvoices: read the
quotes_invoices_with_relations view; on an error only log, so the local
list keeps its previous value.  No fallback query is issued. -/
def fetchQuotesInvoices (viewRes : FetchResult QuoteRow)
    (prev : List QuoteRow) : List QuoteRow × List Query :=
  match viewRes with
  | .ok rows => (rows, [quotesViewQuery])
  | .err => (prev, [quotesViewQuery])

/-! ### QuoteInvoiceDetail page -/

/-- Result of a single-row backend read (the .single() call). -/
inductive FetchOneResult (α : Type) where
  | ok (row : α)
  | err
deriving DecidableEq

/-- Embedding of the QuoteInvoiceDetail fetchQuoteInvoice: read one row of
the view; on an error log and leave the state empty.  No alert is shown. -/
def qiDetailFetch (res : FetchOneResult QuoteRow) :
    Option QuoteRow × UIEffects :=
  match res with
  | .ok row => (some row, ⟨[], []⟩)
  | .err => (none, ⟨["Error fetching quote/invoice:"], []⟩)

/-- Embedding of the QuoteInvoiceDetail handleDelete: when confirmed,
delete on the backend; on success navigate to the list page, on an error
only log.  No alert is shown.  The first component is the navigation
target, if any. -/
def qiDetailHandleDelete (confirmed : Bool) (res : DeleteResult) :
    Option String × UIEffects :=
  if !confirmed then (none, ⟨[], []⟩)
  else
    match res with
    | .ok => (some "/quotes-invoices", ⟨[], []⟩)
    | .err => (none, ⟨["Error deleting quote/invoice:"], []⟩)

/-! ### Interventions page (Interventions component) -/

/-- The columns of an operator row embedded by the interventions query. -/
structure OperatorEmbed where
  id : Int
  full_name : String
deriving DecidableEq

/-- The columns of a client row embedded by the interventions query. -/
structure ClientEmbed where
  id : Int
  name : String
  first_name : String
deriving DecidableEq

/-- The columns of a device row embedded by the interventions query. -/
structure DeviceEmbed where
  id : Int
  brand : String
  model : String
  category : String
  client_id : Option Int
  client : Option ClientEmbed
deriving DecidableEq

/-- The own columns of an interventions table row as the page types it. -/
structure InterventionBase where
  id : Int
  type : String
  status : String
  device_id : Int
  operator_id : Int
  report : Option String
  difficulty : Option String
  self_evaluation : Option String
  intervention_date : String
  verifier_name : Option String
  verifier_rating : Option String
  verification_date : Option String
  verifier_comments : Option String
  operator_comments : Option String
deriving DecidableEq

/-- A row as returned by the interventions list query: the own columns
plus the embedded device and operator objects, absent when the joined row
is missing. -/
structure InterventionJoined extends InterventionBase where
  device : Option DeviceEmbed
  operator : Option OperatorEmbed
deriving DecidableEq

/-- A row of the Interventions page state: the own columns plus the
flattened join columns the fetch transform adds. -/
structure InterventionRow extends InterventionBase where
  device_brand : String
  device_model : String
  device_category : String
  operator_name : String
  client_id : Option Int
  client_name : Option String
  client_first_name : Option String
deriving DecidableEq

/-- The JavaScript idiom x || null on an optional number: null stays null
and the falsy value 0 also becomes null. -/
def jsOrNullInt (v : Option Int) : Option Int :=
  match v with
  | some n => if n = 0 then none else some n
  | none => none

/-- The JavaScript idiom x || null on an optional string: null stays null
and the falsy empty string also becomes null. -/
def jsOrNullStr (v : Option String) : Option String :=
  match v with
  | some s => if s = "" then none else some s
  | none => none

/-- The transform fetchInterventions applies to each joined row: flatten
the embedded device, client and operator columns with the || defaults of
the source. -/
def interventionFromJoined (j : InterventionJoined) : InterventionRow :=
  { toInterventionBase := j.toInterventionBase
    device_brand := (j.device.map DeviceEmbed.brand).getD ""
    device_model := (j.device.map DeviceEmbed.model).getD ""
    device_category := (j.device.map DeviceEmbed.category).getD ""
    operator_name := (j.operator.map OperatorEmbed.full_name).getD ""
    client_id := jsOrNullInt (j.device.bind DeviceEmbed.client_id)
    client_name := jsOrNullStr ((j.device.bind DeviceEmbed.client).map ClientEmbed.name)
    client_first_name :=
      jsOrNullStr ((j.device.bind DeviceEmbed.client).map ClientEmbed.first_name) }

/-- The list query of fetchInterventions: the interventions table with the
embedded device, client and operator joins. -/
def interventionsQuery : Query :=
  { relation := "interventions"
    columns := "*, device:devices(id, brand, model, category, client_id, client:clients(id, name, first_name)), operator:operators(id, full_name)"
    orderBy := "intervention_date", ascending := false }

/-- Embedding of fetchInterventions: read the joined interventions list,
transform each row; on an error log and set the list empty. -/
def fetchInterventions (res : FetchResult InterventionJoined) :
    List InterventionRow × List Query :=
  match res with
  | .ok rows => (rows.map interventionFromJoined, [interventionsQuery])
  | .err => ([], [interventionsQuery])

/-! ### Realtime subscriptions -/

/-- The parameters of a postgres_changes subscription as the pages
register it. -/
structure SubscriptionSpec where
  channel : String
  event : String
  schema : String
  table : String
deriving DecidableEq

/-- The Devices page subscription. -/
def devicesSubscription : SubscriptionSpec :=
  { channel := "devices_changes", event := "*", schema := "public",
    table := "devices" }

/-- The Interventions page subscription. -/
def interventionsSubscription : SubscriptionSpec :=
  { channel := "interventions_changes", event := "*", schema := "public",
    table := "interventions" }

/-- The QuotesInvoices page subscription. -/
def quotesSubscription : SubscriptionSpec :=
  { channel := "quotes_invoices_changes", event := "*", schema := "public",
    table := "quotes_invoices" }

/-- A change notification as delivered to a subscription handler. -/
structure ChangePayload where
  eventType : String
  newRow : List (String × String)
  oldRow : List (String × String)
deriving DecidableEq

/-- The Devices page change handler: log the payload and refetch the full
device list; nothing of the payload flows into the state. -/
def devicesOnChange (_payload : ChangePayload) (viewRes : FetchResult DeviceRow)
    (tableRes : FetchResult DeviceBase) : List DeviceRow × List Query :=
  fetchDevices viewRes tableRes

/-- The Interventions page change handler: refetch the full intervention
list; nothing of the payload flows into the state. -/
def interventionsOnChange (_payload : ChangePayload)
    (res : FetchResult InterventionJoined) : List InterventionRow × List Query :=
  fetchInterventions res

/-- The QuotesInvoices page change handler: refetch the full list; nothing
of the payload flows into the state. -/
def quotesOnChange (_payload : ChangePayload) (viewRes : FetchResult QuoteRow)
    (prev : List QuoteRow) : List QuoteRow × List Query :=
  fetchQuotesInvoices viewRes prev

/-! ### Client-side sort of the list pages

The three list pages share the same sort expression: a copy of the
filtered list sorted by a comparator that returns 0 when no sort field is
selected and otherwise compares the selected column after lower-casing
string values.  JavaScript Array.prototype.sort is a stable sort, embedded
here as a stable insertion sort driven by the comparator. -/

/-- A JavaScript value as it occurs in the sortable columns. -/
inductive JsValue where
  | str (s : String)
  | num (n : Int)
  | boolean (b : Bool)
  | null
  | undefinedValue
deriving DecidableEq

/-- Numeric coercion of the non-string sort values: numbers themselves,
booleans as 0 or 1, null as 0; undefined has none (NaN). -/
def jsNumVal : JsValue → Option Int
  | .num n => some n
  | .boolean b => some (if b then 1 else 0)
  | .null => some 0
  | _ => none

/-- The JavaScript < comparison restricted to the value shapes of the
sortable columns: two strings compare lexicographically, otherwise both
sides are coerced to numbers and any NaN makes the comparison false. -/
def jsLt (a b : JsValue) : Bool :=
  match a, b with
  | .str x, .str y => decide (x < y)
  | _, _ =>
    match jsNumVal a, jsNumVal b with
    | some x, some y => decide (x < y)
    | _, _ => false

/-- Lower-casing of a sort value: the typeof check of the comparator
lower-cases strings and leaves every other value alone. -/
def jsValueLower : JsValue → JsValue
  | .str s => .str (jsToLower s)
  | v => v

/-- The comparator body shared by sortedDevices, sortedInterventions and
sortedQuotesInvoices, for a selected column getter and direction. -/
def sortCmp (getVal : α → JsValue) (asc : Bool) (a b : α) : Int :=
  let av := jsValueLower (getVal a)
  let bv := jsValueLower (getVal b)
  if jsLt av bv then (if asc then -1 else 1)
  else if jsLt bv av then (if asc then 1 else -1)
  else 0

/-- Stable comparator sort, the embedding of Array.prototype.sort. -/
def jsStableSort (cmp : α → α → Int) (l : List α) : List α :=
  List.insertionSort (fun a b => cmp a b ≤ 0) l

/-- The sorted list a page renders: the filtered rows sorted by the
comparator, which returns 0 for every pair while the sort field is the
empty string. -/
def pageSort (getField : String → α → JsValue) (sortField : String)
    (asc : Bool) (filtered : List α) : List α :=
  jsStableSort
    (fun a b => if sortField = "" then 0 else sortCmp (getField sortField) asc a b)
    filtered

/-- Column access a[sortField] on a Devices page row; an unknown field
name yields undefined. -/
def deviceGetField (field : String) (d : DeviceRow) : JsValue :=
  match field with
  | "id" => .num d.id
  | "category" => .str d.category
  | "code" => .str d.code
  | "brand" => .str d.brand
  | "model" => .str d.model
  | "external_condition" => .str d.external_condition
  | "grade" => .str d.grade
  | "functioning" => .str d.functioning
  | "in_stock" => .boolean d.in_stock
  | "storage_location" => .str d.storage_location
  | "operator_id" => (d.operator_id.map JsValue.num).getD .null
  | "operator_name" => (d.operator_name.map JsValue.str).getD .null
  | "intervention_count" => .num d.intervention_count
  | "last_intervention_date" => (d.last_intervention_date.map JsValue.str).getD .null
  | _ => .undefinedValue

/-- The sortedDevices expression of the Devices page. -/
def sortedDevices (sortField : String) (asc : Bool)
    (filtered : List DeviceRow) : List DeviceRow :=
  pageSort deviceGetField sortField asc filtered

/-- Column access a[sortField] on an Interventions page row. -/
def interventionGetField (field : String) (iv : InterventionRow) : JsValue :=
  match field with
  | "id" => .num iv.id
  | "type" => .str iv.type
  | "status" => .str iv.status
  | "device_id" => .num iv.device_id
  | "operator_id" => .num iv.operator_id
  | "report" => (iv.report.map JsValue.str).getD .null
  | "difficulty" => (iv.difficulty.map JsValue.str).getD .null
  | "self_evaluation" => (iv.self_evaluation.map JsValue.str).getD .null
  | "intervention_date" => .str iv.intervention_date
  | "verifier_name" => (iv.verifier_name.map JsValue.str).getD .null
  | "verifier_rating" => (iv.verifier_rating.map JsValue.str).getD .null
  | "verification_date" => (iv.verification_date.map JsValue.str).getD .null
  | "verifier_comments" => (iv.verifier_comments.map JsValue.str).getD .null
  | "operator_comments" => (iv.operator_comments.map JsValue.str).getD .null
  | "device_brand" => .str iv.device_brand
  | "device_model" => .str iv.device_model
  | "device_category" => .str iv.device_category
  | "operator_name" => .str iv.operator_name
  | "client_id" => (iv.client_id.map JsValue.num).getD .null
  | "client_name" => (iv.client_name.map JsValue.str).getD .null
  | "client_first_name" => (iv.client_first_name.map JsValue.str).getD .null
  | _ => .undefinedValue

/-- The sortedInterventions expression of the Interventions page. -/
def sortedInterventions (sortField : String) (asc : Bool)
    (filtered : List InterventionRow) : List InterventionRow :=
  pageSort interventionGetField sortField asc filtered

/-- Column access a[sortField] on a QuotesInvoices page row. -/
def quoteGetField (field : String) (q : QuoteRow) : JsValue :=
  match field with
  | "id" => .num q.id
  | "client_id" => .num q.client_id
  | "document_type" => .str q.document_type
  | "amount" => .num q.amount
  | "status" => .str q.status
  | "issue_date" => .str q.issue_date
  | "payment_date" => (q.payment_date.map JsValue.str).getD .null
  | "created_at" => .str q.created_at
  | "client_name" => .str q.client_name
  | "client_first_name" => .str q.client_first_name
  | "client_company" => (q.client_company.map JsValue.str).getD .null
  | "client_email" => .str q.client_email
  | _ => .undefinedValue

/-- The sortedQuotesInvoices expression of the QuotesInvoices page. -/
def sortedQuotesInvoices (sortField : String) (asc : Bool)
    (filtered : List QuoteRow) : List QuoteRow :=
  pageSort quoteGetField sortField asc filtered

/-! ## Database schema and cascade rules (supabase migrations)

The migrations declare interventions.device_id and
intervention_history.device_id as foreign keys into devices(id) with ON
DELETE CASCADE, and intervention_history.intervention_id as a foreign key
into interventions(id) with ON DELETE CASCADE.  The embedding keeps the
referencing columns of the three tables and gives each database operation
the semantics the declared constraints impose: inserts are rejected when a
referenced row is missing, deletes cascade. -/

/-- The referencing columns of the three tables: device ids, interventions
as (id, device_id), history rows as (id, device_id, intervention_id). -/
structure DBState where
  devices : List Int
  interventions : List (Int × Int)
  history : List (Int × Int × Int)
deriving DecidableEq

/-- The empty database. -/
def dbInit : DBState := ⟨[], [], []⟩

/-- Insert a device row. -/
def dbInsertDevice (s : DBState) (did : Int) : DBState :=
  { s with devices := s.devices ++ [did] }

/-- Insert an intervention row; the foreign key rejects a missing device. -/
def dbInsertIntervention (s : DBState) (iid did : Int) : Option DBState :=
  if did ∈ s.devices then
    some { s with interventions := s.interventions ++ [(iid, did)] }
  else none

/-- Insert a history row; the foreign keys reject a missing device or
intervention. -/
def dbInsertHistory (s : DBState) (hid did iid : Int) : Option DBState :=
  if did ∈ s.devices ∧ iid ∈ s.interventions.map Prod.fst then
    some { s with history := s.history ++ [(hid, did, iid)] }
  else none

/-- Delete a device: ON DELETE CASCADE removes the interventions
referencing it, and the history rows referencing the device or one of the
removed interventions. -/
def dbDeleteDevice (s : DBState) (did : Int) : DBState :=
  let removedIv := (s.interventions.filter (fun iv => decide (iv.2 = did))).map Prod.fst
  { devices := s.devices.filter (fun d => decide (d ≠ did))
    interventions := s.interventions.filter (fun iv => decide (iv.2 ≠ did))
    history := s.history.filter (fun h => decide (h.2.1 ≠ did ∧ h.2.2 ∉ removedIv)) }

/-- Delete an intervention: ON DELETE CASCADE removes the history rows
referencing it. -/
def dbDeleteIntervention (s : DBState) (iid : Int) : DBState :=
  { s with
    interventions := s.interventions.filter (fun iv => decide (iv.1 ≠ iid))
    history := s.history.filter (fun h => decide (h.2.2 ≠ iid)) }

/-- The database states reachable from the empty database through the
constraint-checked operations. -/
inductive Reachable : DBState → Prop where
  | init : Reachable dbInit
  | insDev (s : DBState) (did : Int) : Reachable s → Reachable (dbInsertDevice s did)
  | insIv (s s2 : DBState) (iid did : Int) : Reachable s →
      dbInsertIntervention s iid did = some s2 → Reachable s2
  | insHist (s s2 : DBState) (hid did iid : Int) : Reachable s →
      dbInsertHistory s hid did iid = some s2 → Reachable s2
  | delDev (s : DBState) (did : Int) : Reachable s → Reachable (dbDeleteDevice s did)
  | delIv (s : DBState) (iid : Int) : Reachable s → Reachable (dbDeleteIntervention s iid)

/-- Referential integrity of a database state: every intervention
references an existing device and every history row references an existing
device and an existing intervention. -/
def WF (s : DBState) : Prop :=
  (∀ iv ∈ s.interventions, iv.2 ∈ s.devices) ∧
  (∀ h ∈ s.history, h.2.1 ∈ s.devices ∧ h.2.2 ∈ s.interventions.map Prod.fst)

/-- A sample client row used to evaluate the delete handler. -/
def clientA : ClientRow :=
  { id := "1", name := "Dupont", first_name := "Jean", company := "ACME",
    email := "jean@example.fr", phone := "01", address := "1 rue A",
    city := "Paris", postal_code := "75001", expectations := "",
    comments := "", created_at := "2024-01-01", device_count := some 2,
    quote_invoice_count := some 1, total_amount := some 100 }

/-- A second sample client row used to evaluate the delete handler. -/
def clientB : ClientRow :=
  { id := "2", name := "Martin", first_name := "Anne", company := "",
    email := "anne@example.fr", phone := "02", address := "2 rue B",
    city := "Lyon", postal_code := "69001", expectations := "",
    comments := "", created_at := "2024-02-01", device_count := none,
    quote_invoice_count := none, total_amount := none }

/-! ## Lemmas about the category utilities -/

theorem lookupStr_eq_none (l : List (String × String)) (c : String)
    (h : c ∉ l.map Prod.fst) : lookupStr l c = none := by
  induction l with
  | nil => rfl
  | cons p rest ih =>
    obtain ⟨k, v⟩ := p
    simp only [List.map_cons, List.mem_cons] at h
    push_neg at h
    simp only [lookupStr]
    rw [if_neg (fun e => h.1 e.symm)]
    exact ih h.2

theorem lookupStr_eq_some {l : List (String × String)} {c a : String}
    (hnd : (l.map Prod.fst).Nodup) (h : (c, a) ∈ l) : lookupStr l c = some a := by
  induction l with
  | nil => simp at h
  | cons p rest ih =>
    obtain ⟨k, v⟩ := p
    simp only [List.map_cons, List.nodup_cons] at hnd
    rcases List.mem_cons.mp h with h | h
    · simp only [Prod.mk.injEq] at h
      obtain ⟨rfl, rfl⟩ := h
      simp [lookupStr]
    · have hkc : k ≠ c := by
        intro e
        subst e
        exact hnd.1 (List.mem_map.mpr ⟨(k, a), h, rfl⟩)
      simp only [lookupStr]
      rw [if_neg hkc]
      exact ih hnd.2 h

theorem lookupStr_mem {l : List (String × String)} {c a : String}
    (h : lookupStr l c = some a) : (c, a) ∈ l := by
  induction l with
  | nil => simp [lookupStr] at h
  | cons p rest ih =>
    obtain ⟨k, v⟩ := p
    simp only [lookupStr] at h
    by_cases e : k = c
    · rw [if_pos e] at h
      injection h with h
      subst e; subst h
      exact List.mem_cons_self _ _
    · rw [if_neg e] at h
      exact List.mem_cons_of_mem _ (ih h)

/-- C1: getCategoryAbbreviation is total: a category that is a key of
categoryDiminutives maps to its three-letter abbreviation, and any other
category string is returned unchanged. -/
theorem getCategoryAbbreviation_total (c a : String) :
    ((c, a) ∈ categoryDiminutives → getCategoryAbbreviation c = a) ∧
    (c ∉ categoryDiminutives.map Prod.fst → getCategoryAbbreviation c = c) := by
  constructor
  · intro h
    have hval : a ≠ "" := by
      have hall : ∀ p ∈ categoryDiminutives, p.2 ≠ "" := by decide
      exact hall (c, a) h
    unfold getCategoryAbbreviation
    rw [lookupStr_eq_some (by decide) h]
    show (if a = "" then c else a) = a
    rw [if_neg hval]
  · intro h
    unfold getCategoryAbbreviation
    rw [lookupStr_eq_none _ _ h]

theorem getCategoryAbbreviation_total_witness :
    getCategoryAbbreviation "Informatique" = "INF" ∧
    getCategoryAbbreviation "Autre" = "Autre" :=
  ⟨(getCategoryAbbreviation_total "Informatique" "INF").1 (by decide),
   (getCategoryAbbreviation_total "Autre" "Autre").2 (by decide)⟩

/-- C2: getProductCode returns the abbreviation of the category, the
separator dash and the item code, concatenated in that order. -/
theorem getProductCode_concat (category code : String) :
    getProductCode category code = getCategoryAbbreviation category ++ "-" ++ code := by
  show "" ++ getCategoryAbbreviation category ++ "-" ++ code ++ "" = _
  rw [String.append_empty, String.empty_append]

/-- C3: searchInCategoryAbbreviations returns exactly the category labels
whose label or abbreviation contains the search term case-insensitively;
every returned string is a key of the table, and terms equal up to case
give the same result. -/
theorem searchInCategoryAbbreviations_spec (t c : String) :
    (c ∈ searchInCategoryAbbreviations t → c ∈ categoryDiminutives.map Prod.fst) ∧
    (c ∈ searchInCategoryAbbreviations t ↔
      ∃ d, (c, d) ∈ categoryDiminutives ∧
        (containsSubstr (jsToLower c) (jsToLower t) = true ∨
         containsSubstr (jsToLower d) (jsToLower t) = true)) ∧
    (∀ t2, jsToLower t = jsToLower t2 →
      searchInCategoryAbbreviations t = searchInCategoryAbbreviations t2) := by
  refine ⟨?_, ?_, ?_⟩
  · intro h
    simp only [searchInCategoryAbbreviations, List.mem_map] at h ⊢
    obtain ⟨p, hp, rfl⟩ := h
    exact ⟨p, (List.mem_filter.mp hp).1, rfl⟩
  · constructor
    · intro h
      simp only [searchInCategoryAbbreviations, List.mem_map] at h
      obtain ⟨p, hp, rfl⟩ := h
      have hp2 := List.mem_filter.mp hp
      refine ⟨p.2, hp2.1, ?_⟩
      simpa [Bool.or_eq_true] using hp2.2
    · rintro ⟨d, hmem, hc⟩
      simp only [searchInCategoryAbbreviations, List.mem_map]
      refine ⟨(c, d), List.mem_filter.mpr ⟨hmem, ?_⟩, rfl⟩
      simpa [Bool.or_eq_true] using hc
  · intro t2 h
    simp only [searchInCategoryAbbreviations]
    rw [h]

theorem searchInCategoryAbbreviations_spec_witness :
    "Lumière" ∈ categoryDiminutives.map Prod.fst ∧
    searchInCategoryAbbreviations "LUM" = searchInCategoryAbbreviations "lum" :=
  ⟨(searchInCategoryAbbreviations_spec "LUM" "Lumière").1 (by decide),
   (searchInCategoryAbbreviations_spec "LUM" "Lumière").2.2 "lum" (by decide)⟩

/-- C8: getCategoryAbbreviation is idempotent, because no abbreviation
value of the table is itself a key of the table. -/
theorem getCategoryAbbreviation_idem (c : String) :
    getCategoryAbbreviation (getCategoryAbbreviation c) = getCategoryAbbreviation c := by
  rcases h : lookupStr categoryDiminutives c with _ | v
  · have h1 : getCategoryAbbreviation c = c := by
      unfold getCategoryAbbreviation
      rw [h]
    rw [h1]
    exact h1
  · have hv := lookupStr_mem h
    have hne : v ≠ "" := by
      have hall : ∀ p ∈ categoryDiminutives, p.2 ≠ "" := by decide
      exact hall (c, v) hv
    have h1 : getCategoryAbbreviation c = v := by
      unfold getCategoryAbbreviation
      rw [h]
      show (if v = "" then c else v) = v
      rw [if_neg hne]
    have hnk : v ∉ categoryDiminutives.map Prod.fst := by
      have hall : ∀ p ∈ categoryDiminutives,
          p.2 ∉ categoryDiminutives.map Prod.fst := by decide
      exact hall (c, v) hv
    rw [h1]
    unfold getCategoryAbbreviation
    rw [lookupStr_eq_none _ _ hnk]

/-! ## Theorems about the list fetches and error handling -/

/-- C4, counterexample: on a view error the QuotesInvoices page issues no
query against the quotes_invoices base table; the only query issued is
the view query, and the previous (empty) list is kept instead of any
fallback data. -/
theorem quotes_fetch_no_fallback_cex :
    (fetchQuotesInvoices FetchResult.err []).2.map Query.relation =
      ["quotes_invoices_with_relations"] ∧
    (fetchQuotesInvoices FetchResult.err []).1 = [] :=
  ⟨rfl, rfl⟩

/-- C4 (amended): the Clients and Devices list fetches fall back to a
simpler unjoined query against the base table on a view error, ordered the
same way as the view query; the QuotesInvoices list fetch issues no
fallback query and keeps the previous list on a view error. -/
theorem list_fetch_fallback :
    (∀ rows tableRes, (fetchClients (FetchResult.ok rows) tableRes).1 = rows) ∧
    (∀ rows, (fetchClients FetchResult.err (FetchResult.ok rows)).1 = rows) ∧
    (fetchClients FetchResult.err FetchResult.err).1 = [] ∧
    (∀ tableRes, (fetchClients FetchResult.err tableRes).2 =
      [clientsViewQuery, clientsFallbackQuery]) ∧
    clientsFallbackQuery.orderBy = clientsViewQuery.orderBy ∧
    clientsFallbackQuery.ascending = clientsViewQuery.ascending ∧
    clientsFallbackQuery.relation = "clients" ∧
    (∀ rows tableRes, (fetchDevices (FetchResult.ok rows) tableRes).1 = rows) ∧
    (∀ rows, (fetchDevices FetchResult.err (FetchResult.ok rows)).1 =
      rows.map deviceFromBase) ∧
    (∀ tableRes, (fetchDevices FetchResult.err tableRes).2 =
      [devicesViewQuery, devicesFallbackQuery]) ∧
    devicesFallbackQuery.orderBy = devicesViewQuery.orderBy ∧
    devicesFallbackQuery.ascending = devicesViewQuery.ascending ∧
    devicesFallbackQuery.relation = "devices" ∧
    (∀ prev, (fetchQuotesInvoices FetchResult.err prev).1 = prev) ∧
    (∀ prev, (fetchQuotesInvoices FetchResult.err prev).2 = [quotesViewQuery]) := by
  refine ⟨fun rows t => rfl, fun rows => rfl, rfl, ?_, rfl, rfl, rfl,
    fun rows t => rfl, fun rows => rfl, ?_, rfl, rfl, rfl,
    fun prev => rfl, fun prev => rfl⟩
  · intro t
    cases t <;> rfl
  · intro t
    cases t <;> rfl

/-- C5, counterexample: the QuoteInvoiceDetail delete handler, on a
backend error, logs the error but shows no user-visible message. -/
theorem qi_delete_silent_cex :
    (qiDetailHandleDelete true DeleteResult.err).2.alerts = [] ∧
    (qiDetailHandleDelete true DeleteResult.err).2.logs ≠ [] := by
  exact ⟨rfl, by decide⟩

/-- C5 (amended): every embedded operation catches its backend error and
logs it, and the Clients delete also surfaces the generic localized alert,
but the QuoteInvoiceDetail delete and fetch operations only log, with no
user-visible message. -/
theorem error_handling_per_operation :
    (∀ clients targetId,
      (clientsHandleDelete true DeleteResult.err clients targetId).1 = clients ∧
      (clientsHandleDelete true DeleteResult.err clients targetId).2.logs ≠ [] ∧
      (clientsHandleDelete true DeleteResult.err clients targetId).2.alerts =
        ["Erreur lors de la suppression du client"]) ∧
    ((qiDetailHandleDelete true DeleteResult.err).1 = none ∧
      (qiDetailHandleDelete true DeleteResult.err).2.logs ≠ [] ∧
      (qiDetailHandleDelete true DeleteResult.err).2.alerts = []) ∧
    ((qiDetailFetch (FetchOneResult.err)).1 = none ∧
      (qiDetailFetch (FetchOneResult.err : FetchOneResult QuoteRow)).2.logs ≠ [] ∧
      (qiDetailFetch (FetchOneResult.err : FetchOneResult QuoteRow)).2.alerts = []) :=
  ⟨fun clients targetId => ⟨rfl, List.cons_ne_nil _ _, rfl⟩,
   ⟨rfl, by decide, rfl⟩,
   ⟨rfl, by decide, rfl⟩⟩

/-- C6: every subscribed change handler ignores the notification payload
and re-issues the complete list query of its page: the new state equals
the full refetch result for any two payloads, the queries issued start
with the page list query, and the subscriptions cover the devices,
interventions and quotes_invoices tables. -/
theorem subscription_full_refetch :
    (∀ p q viewRes tableRes, devicesOnChange p viewRes tableRes =
      devicesOnChange q viewRes tableRes) ∧
    (∀ p viewRes tableRes, devicesOnChange p viewRes tableRes =
      fetchDevices viewRes tableRes) ∧
    (∀ viewRes tableRes,
      (fetchDevices viewRes tableRes).2.head? = some devicesViewQuery) ∧
    (∀ p q res, interventionsOnChange p res = interventionsOnChange q res) ∧
    (∀ p res, interventionsOnChange p res = fetchInterventions res) ∧
    (∀ res, (fetchInterventions res).2 = [interventionsQuery]) ∧
    (∀ p q viewRes prev, quotesOnChange p viewRes prev =
      quotesOnChange q viewRes prev) ∧
    (∀ p viewRes prev, quotesOnChange p viewRes prev =
      fetchQuotesInvoices viewRes prev) ∧
    (∀ viewRes prev, (fetchQuotesInvoices viewRes prev).2 = [quotesViewQuery]) ∧
    devicesSubscription.table = "devices" ∧
    interventionsSubscription.table = "interventions" ∧
    quotesSubscription.table = "quotes_invoices" := by
  refine ⟨fun p q v t => rfl, fun p v t => rfl, ?_, fun p q r => rfl,
    fun p r => rfl, ?_, fun p q v pr => rfl, fun p v pr => rfl, ?_,
    rfl, rfl, rfl⟩
  · intro v t
    cases v <;> cases t <;> rfl
  · intro r
    cases r <;> rfl
  · intro v pr
    cases v <;> rfl

/-! ## Theorems about the Clients delete handler -/

/-- C9: the Clients delete is atomic on the displayed list: on success the
new list is a sublist of the old one in which no row carries the deleted
id, every row with another id survives with its multiplicity unchanged;
on a backend error the list is unchanged. -/
theorem clients_delete_atomic (clients : List ClientRow) (targetId : String) :
    ((clientsHandleDelete true DeleteResult.ok clients targetId).1.Sublist clients ∧
     (∀ c ∈ (clientsHandleDelete true DeleteResult.ok clients targetId).1,
        c.id ≠ targetId) ∧
     (∀ c ∈ clients, c.id ≠ targetId →
        c ∈ (clientsHandleDelete true DeleteResult.ok clients targetId).1) ∧
     (∀ c : ClientRow, c.id ≠ targetId →
        (clientsHandleDelete true DeleteResult.ok clients targetId).1.countP
            (fun x => decide (x = c)) =
          clients.countP (fun x => decide (x = c)))) ∧
    (clientsHandleDelete true DeleteResult.err clients targetId).1 = clients := by
  have hdef : (clientsHandleDelete true DeleteResult.ok clients targetId).1 =
      clients.filter (fun c => decide (c.id ≠ targetId)) := rfl
  refine ⟨⟨?_, ?_, ?_, ?_⟩, rfl⟩
  · rw [hdef]
    exact List.filter_sublist clients
  · intro c hc
    rw [hdef] at hc
    exact of_decide_eq_true (List.mem_filter.mp hc).2
  · intro c hc hne
    rw [hdef]
    exact List.mem_filter.mpr ⟨hc, decide_eq_true hne⟩
  · intro c hne
    rw [hdef, List.countP_filter]
    congr 1
    funext a
    by_cases ha : a = c
    · subst ha
      simp [hne]
    · simp [ha]

theorem clients_delete_atomic_witness :
    clientA ∈ (clientsHandleDelete true DeleteResult.ok [clientA, clientB] "2").1 ∧
    (clientsHandleDelete true DeleteResult.ok [clientA, clientB] "2").1.countP
        (fun x => decide (x = clientA)) =
      [clientA, clientB].countP (fun x => decide (x = clientA)) :=
  ⟨(clients_delete_atomic [clientA, clientB] "2").1.2.2.1 clientA (by decide)
      (by decide),
   (clients_delete_atomic [clientA, clientB] "2").1.2.2.2 clientA (by decide)⟩

/-! ## Theorems about the client-side sort -/

theorem insertionSort_eq_self (r : α → α → Prop) [DecidableRel r]
    (hr : ∀ a b, r a b) (l : List α) : List.insertionSort r l = l := by
  induction l with
  | nil => rfl
  | cons a t ih => rw [List.insertionSort_cons r (fun b _ => hr a b), ih]

theorem orderedInsert_congr (r q : α → α → Prop) [DecidableRel r] [DecidableRel q]
    (h : ∀ a b, r a b ↔ q a b) (a : α) (l : List α) :
    List.orderedInsert r a l = List.orderedInsert q a l := by
  induction l with
  | nil => rfl
  | cons b t ih =>
    simp only [List.orderedInsert]
    by_cases hr : r a b
    · rw [if_pos hr, if_pos ((h a b).mp hr)]
    · rw [if_neg hr, if_neg (fun hq => hr ((h a b).mpr hq)), ih]

theorem insertionSort_congr (r q : α → α → Prop) [DecidableRel r] [DecidableRel q]
    (h : ∀ a b, r a b ↔ q a b) (l : List α) :
    List.insertionSort r l = List.insertionSort q l := by
  induction l with
  | nil => rfl
  | cons a t ih =>
    simp only [List.insertionSort]
    rw [ih, orderedInsert_congr r q h]

/-- C10: the client-side sort of the list pages is a permutation of the
rows it is given, returns them unchanged in fetch order when no sort field
is selected, and depends on string columns only through their
lower-casing. -/
theorem page_sort_spec :
    (∀ (α : Type) (getField : String → α → JsValue) (sf : String) (asc : Bool)
      (l : List α), (pageSort getField sf asc l).Perm l) ∧
    (∀ (α : Type) (getField : String → α → JsValue) (asc : Bool) (l : List α),
      pageSort getField "" asc l = l) ∧
    (∀ (α : Type) (g g2 : String → α → JsValue) (sf : String) (asc : Bool)
      (l : List α),
      (∀ f x, jsValueLower (g f x) = jsValueLower (g2 f x)) →
      pageSort g sf asc l = pageSort g2 sf asc l) ∧
    (∀ sf asc l, (sortedDevices sf asc l).Perm l) ∧
    (∀ asc l, sortedDevices "" asc l = l) ∧
    (∀ sf asc l, (sortedInterventions sf asc l).Perm l) ∧
    (∀ asc l, sortedInterventions "" asc l = l) ∧
    (∀ sf asc l, (sortedQuotesInvoices sf asc l).Perm l) ∧
    (∀ asc l, sortedQuotesInvoices "" asc l = l) := by
  have hperm : ∀ (α : Type) (getField : String → α → JsValue) (sf : String)
      (asc : Bool) (l : List α), (pageSort getField sf asc l).Perm l := by
    intro α g sf asc l
    exact List.perm_insertionSort _ l
  have hid : ∀ (α : Type) (getField : String → α → JsValue) (asc : Bool)
      (l : List α), pageSort getField "" asc l = l := by
    intro α g asc l
    exact insertionSort_eq_self _ (fun a b => by simp) l
  refine ⟨hperm, hid, ?_, fun sf asc l => hperm _ _ sf asc l,
    fun asc l => hid _ _ asc l, fun sf asc l => hperm _ _ sf asc l,
    fun asc l => hid _ _ asc l, fun sf asc l => hperm _ _ sf asc l,
    fun asc l => hid _ _ asc l⟩
  intro α g g2 sf asc l h
  unfold pageSort jsStableSort
  apply insertionSort_congr
  intro a b
  by_cases hsf : sf = ""
  · simp [hsf]
  · simp only [if_neg hsf]
    have hcmp : sortCmp (g sf) asc a b = sortCmp (g2 sf) asc a b := by
      simp only [sortCmp, h sf a, h sf b]
    rw [hcmp]

theorem page_sort_spec_witness :
    pageSort (fun _ _ => JsValue.str "A") "f" true ([0, 1] : List Int) =
      pageSort (fun _ _ => JsValue.str "a") "f" true ([0, 1] : List Int) :=
  page_sort_spec.2.2.1 Int (fun _ _ => JsValue.str "A")
    (fun _ _ => JsValue.str "a") "f" true [0, 1] (fun _ _ => rfl)

/-! ## Theorems about the database cascade rules -/

/-- C7: in every reachable database state every intervention and history
row references an existing device and an existing intervention, and
deleting a device leaves no intervention and no history row referencing
it; both follow from the declared constraint semantics alone. -/
theorem db_cascade_integrity :
    (∀ s, Reachable s → WF s) ∧
    (∀ s did,
      (dbDeleteDevice s did).interventions.filter
          (fun iv => decide (iv.2 = did)) = [] ∧
      (dbDeleteDevice s did).history.filter
          (fun hrow => decide (hrow.2.1 = did)) = []) := by
  constructor
  · intro s hs
    induction hs with
    | init => exact ⟨by simp [dbInit], by simp [dbInit]⟩
    | insDev t did _ ih =>
      obtain ⟨h1, h2⟩ := ih
      refine ⟨fun iv hiv => ?_, fun hrow hh => ?_⟩
      · exact List.mem_append_left _ (h1 iv hiv)
      · refine ⟨List.mem_append_left _ (h2 hrow hh).1, (h2 hrow hh).2⟩
    | insIv t t2 iid did _ heq ih =>
      obtain ⟨h1, h2⟩ := ih
      simp only [dbInsertIntervention] at heq
      split_ifs at heq with hd
      · injection heq with heq
        subst heq
        refine ⟨fun iv hiv => ?_, fun hrow hh => ?_⟩
        · rcases List.mem_append.mp hiv with hiv | hiv
          · exact h1 iv hiv
          · rw [List.mem_singleton.mp hiv]
            exact hd
        · refine ⟨(h2 hrow hh).1, ?_⟩
          rw [List.map_append]
          exact List.mem_append_left _ (h2 hrow hh).2
    | insHist t t2 hid did iid _ heq ih =>
      obtain ⟨h1, h2⟩ := ih
      simp only [dbInsertHistory] at heq
      split_ifs at heq with hd
      · injection heq with heq
        subst heq
        refine ⟨fun iv hiv => h1 iv hiv, fun hrow hh => ?_⟩
        rcases List.mem_append.mp hh with hh | hh
        · exact h2 hrow hh
        · rw [List.mem_singleton.mp hh]
          exact hd
    | delDev t did _ ih =>
      obtain ⟨h1, h2⟩ := ih
      refine ⟨fun iv hiv => ?_, fun hrow hh => ?_⟩
      · simp only [dbDeleteDevice, List.mem_filter, decide_eq_true_eq] at hiv ⊢
        exact ⟨h1 iv hiv.1, hiv.2⟩
      · simp only [dbDeleteDevice, List.mem_filter, decide_eq_true_eq] at hh ⊢
        obtain ⟨hmem, hdev, hnotiv⟩ := hh
        refine ⟨⟨(h2 hrow hmem).1, hdev⟩, ?_⟩
        have hsrc := (h2 hrow hmem).2
        simp only [List.mem_map] at hsrc ⊢
        obtain ⟨iv, hivmem, hfst⟩ := hsrc
        refine ⟨iv, List.mem_filter.mpr ⟨hivmem, ?_⟩, hfst⟩
        simp only [decide_eq_true_eq]
        intro hivdid
        apply hnotiv
        simp only [List.mem_map]
        refine ⟨iv, List.mem_filter.mpr ⟨hivmem, by simp [hivdid]⟩, hfst⟩
    | delIv t iid _ ih =>
      obtain ⟨h1, h2⟩ := ih
      refine ⟨fun iv hiv => ?_, fun hrow hh => ?_⟩
      · simp only [dbDeleteIntervention, List.mem_filter, decide_eq_true_eq] at hiv
        exact h1 iv hiv.1
      · simp only [dbDeleteIntervention, List.mem_filter, decide_eq_true_eq] at hh
        obtain ⟨hmem, hne⟩ := hh
        refine ⟨(h2 hrow hmem).1, ?_⟩
        have hsrc := (h2 hrow hmem).2
        simp only [List.mem_map] at hsrc ⊢
        obtain ⟨iv, hivmem, hfst⟩ := hsrc
        refine ⟨iv, List.mem_filter.mpr ⟨hivmem, ?_⟩, hfst⟩
        simp only [decide_eq_true_eq]
        rw [hfst]
        exact hne
  · intro s did
    constructor
    · rw [List.filter_eq_nil_iff]
      intro iv hiv
      simp only [dbDeleteDevice, List.mem_filter, decide_eq_true_eq] at hiv ⊢
      exact hiv.2
    · rw [List.filter_eq_nil_iff]
      intro hrow hh
      simp only [dbDeleteDevice, List.mem_filter, decide_eq_true_eq] at hh ⊢
      exact hh.2.1

theorem db_cascade_integrity_witness :
    WF dbInit ∧
    ((dbDeleteDevice ⟨[1], [(5, 1)], [(9, 1, 5)]⟩ 1).interventions.filter
        (fun iv => decide (iv.2 = 1)) = [] ∧
      (dbDeleteDevice ⟨[1], [(5, 1)], [(9, 1, 5)]⟩ 1).history.filter
        (fun hrow => decide (hrow.2.1 = 1)) = []) :=
  ⟨db_cascade_integrity.1 dbInit Reachable.init,
   db_cascade_integrity.2 ⟨[1], [(5, 1)], [(9, 1, 5)]⟩ 1⟩

end CrmLeparc
